import Mathlib

/-!
Verification of the Hyderabad weather-report script (`Airflow_day1.py`).

The script is embedded shallowly:

* `is_valid_date` models `datetime.strptime(text, "%Y-%m-%d")` wrapped in
  `try/except ValueError`.  CPython's `_strptime` compiles `%Y` to the regex
  `\d\d\d\d`, `%m` to `1[0-2]|0[1-9]|[1-9]` and `%d` to
  `3[0-1]|[1-2]\d|0[1-9]|[1-9]` (with `IGNORECASE` only, so `\d` matches
  any Unicode decimal digit, category Nd, whose decimal value `int()`
  then uses, while the bracketed classes are ASCII), requires the whole
  string to be consumed, and the `datetime` constructor then checks that
  the numbers form a real calendar date (year within 1..9999, day within
  the month's length).
* `get_user_date_input` consumes a list of console inputs two at a time;
  exhausting the list stands for `input()` raising `EOFError`.
* `get_weather_data` is a function of the one HTTP outcome the script
  observes; the three `except` clauses become the three `FetchError`s.
* `print_weather_report`, `find_extremes` and `detect_anomalies` return
  `Except PyErr _` where the source can raise `ValueError`/`IndexError`;
  temperatures are modelled as rationals.
* `main_steps` records which pipeline stages run.
-/

set_option autoImplicit false

namespace Airflow

/-- The value of an ASCII decimal digit character, `none` otherwise.
Models the explicit ASCII character classes of CPython's `_strptime`
regexes, such as `[1-9]`, `1[0-2]`, `3[0-1]` and the leading `[1-2]`. -/
def digit? (c : Char) : Option Nat :=
  if 48 ≤ c.toNat ∧ c.toNat ≤ 57 then some (c.toNat - 48) else none

/-- The first code points of the runs of ten consecutive Unicode decimal
digits (category Nd, values 0..9 in order), Unicode 14.0.0 — the
character set CPython's `\d` matches when, as in `_strptime`, a pattern
is compiled without `re.ASCII`, and the characters `int()` converts. -/
def ndBases : List Nat :=
  [48, 1632, 1776, 1984, 2406, 2534, 2662, 2790, 2918, 3046, 3174, 3302,
   3430, 3558, 3664, 3792, 3872, 4160, 4240, 6112, 6160, 6470, 6608, 6784,
   6800, 6992, 7088, 7232, 7248, 42528, 43216, 43264, 43472, 43504, 43600,
   44016, 65296, 66720, 68912, 69734, 69872, 69942, 70096, 70384, 70736,
   70864, 71248, 71360, 71472, 71904, 72016, 72784, 73040, 73120, 92768,
   92864, 93008, 120782, 120792, 120802, 120812, 120822, 123200, 123632,
   125264, 130032]

/-- The decimal value of a Unicode decimal digit (category Nd), `none`
for any other character: the semantics of `\d` in `_strptime`'s
patterns, which are compiled with `IGNORECASE` only (no `re.ASCII`), and
of the digit characters `int()` converts. -/
def uniDigit? (c : Char) : Option Nat :=
  match ndBases.find? (fun b => decide (b ≤ c.toNat ∧ c.toNat ≤ b + 9)) with
  | some b => some (c.toNat - b)
  | none => none

/-- `%Y` in `_strptime`: exactly four digits (regex `\d\d\d\d`), each of
which may be any Unicode decimal digit; `int()` then combines their
decimal values. -/
def parseYear : List Char → Option (Nat × List Char)
  | c1 :: c2 :: c3 :: c4 :: rest =>
    match uniDigit? c1, uniDigit? c2, uniDigit? c3, uniDigit? c4 with
    | some u1, some u2, some u3, some u4 =>
        some (1000 * u1 + 100 * u2 + 10 * u3 + u4, rest)
    | _, _, _, _ => none
  | _ => none

/-- `%m` in `_strptime`: the regex `1[0-2]|0[1-9]|[1-9]`, alternatives
tried left to right exactly as the regex engine does. -/
def parseMonth : List Char → Option (Nat × List Char)
  | c1 :: c2 :: rest =>
    match digit? c1, digit? c2 with
    | some d1, some d2 =>
        if d1 = 1 ∧ d2 ≤ 2 then some (10 + d2, rest)
        else if d1 = 0 ∧ 1 ≤ d2 then some (d2, rest)
        else if 1 ≤ d1 then some (d1, c2 :: rest)
        else none
    | some d1, none => if 1 ≤ d1 then some (d1, c2 :: rest) else none
    | none, _ => none
  | [c1] =>
    match digit? c1 with
    | some d1 => if 1 ≤ d1 then some (d1, []) else none
    | none => none
  | [] => none

/-- `%d` in `_strptime`: the regex `3[0-1]|[1-2]\d|0[1-9]|[1-9]`, with
the alternatives tried left to right.  Every alternative starts with an
explicit ASCII class, but `\d` in `[1-2]\d` matches any Unicode decimal
digit, whose decimal value `int()` then uses. -/
def parseDay : List Char → Option (Nat × List Char)
  | c1 :: c2 :: rest =>
    match digit? c1 with
    | none => none
    | some d1 =>
      match digit? c2 with
      | some a2 =>
          if d1 = 3 ∧ a2 ≤ 1 then some (30 + a2, rest)
          else if d1 = 1 ∨ d1 = 2 then some (10 * d1 + a2, rest)
          else if d1 = 0 ∧ 1 ≤ a2 then some (a2, rest)
          else if 1 ≤ d1 then some (d1, c2 :: rest)
          else none
      | none =>
        match uniDigit? c2 with
        | some u2 =>
            if d1 = 1 ∨ d1 = 2 then some (10 * d1 + u2, rest)
            else if 1 ≤ d1 then some (d1, c2 :: rest)
            else none
        | none => if 1 ≤ d1 then some (d1, c2 :: rest) else none
  | [c1] =>
    match digit? c1 with
    | some d1 => if 1 ≤ d1 then some (d1, []) else none
    | none => none
  | [] => none

/-- The whole `"%Y-%m-%d"` match: year, literal `-`, month, literal `-`,
day, and `_strptime`'s check that the match consumed the entire string. -/
def strptimeYmd (s : List Char) : Option (Nat × Nat × Nat) :=
  match parseYear s with
  | none => none
  | some (y, r1) =>
    match r1 with
    | '-' :: r2 =>
      match parseMonth r2 with
      | none => none
      | some (m, r3) =>
        match r3 with
        | '-' :: r4 =>
          match parseDay r4 with
          | none => none
          | some (d, r5) => if r5 = [] then some (y, m, d) else none
        | _ => none
    | _ => none

/-- Gregorian leap year, as `datetime`'s calendar uses. -/
def isLeap (y : Nat) : Bool :=
  y % 4 = 0 && (y % 100 ≠ 0 || y % 400 = 0)

/-- Number of days in month `m` of year `y` (the `datetime` calendar). -/
def daysInMonth (y m : Nat) : Nat :=
  if m = 2 then (if isLeap y then 29 else 28)
  else if m = 4 ∨ m = 6 ∨ m = 9 ∨ m = 11 then 30
  else 31

/-- The `datetime(year, month, day)` constructor's validation:
`MINYEAR ≤ year ≤ MAXYEAR`, `1 ≤ month ≤ 12`, `1 ≤ day ≤ days_in_month`. -/
def datetimeOk (y m d : Nat) : Bool :=
  1 ≤ y && y ≤ 9999 && 1 ≤ m && m ≤ 12 && 1 ≤ d && d ≤ daysInMonth y m

/-- `is_valid_date` from the source: `strptime` succeeds and the parsed
numbers form a constructible `datetime`; any `ValueError` gives `False`. -/
def is_valid_date (s : String) : Bool :=
  match strptimeYmd s.data with
  | none => false
  | some (y, m, d) => datetimeOk y m d

/-- The same computation with the `ValueError` kept explicit: `strptime`
either returns a date or raises, and `is_valid_date`'s `try/except`
converts the outcome to a boolean. -/
def strptimeE (s : String) : Except String (Nat × Nat × Nat) :=
  match strptimeYmd s.data with
  | none => Except.error "ValueError"
  | some (y, m, d) =>
      if datetimeOk y m d then Except.ok (y, m, d)
      else Except.error "ValueError"

/-- `is_valid_date` with the exception flow explicit: the `try` block
returns `True` on success, the `except ValueError` handler returns
`False`.  An uncaught exception would be an `Except.error` result. -/
def is_valid_dateE (s : String) : Except String Bool :=
  match strptimeE s with
  | Except.ok _ => Except.ok true
  | Except.error _ => Except.ok false

/-- All characters of `l` are ASCII decimal digits. -/
def AllDigits (l : List Char) : Prop :=
  ∀ c ∈ l, 48 ≤ c.toNat ∧ c.toNat ≤ 57

/-- All characters of `l` are Unicode decimal digits (category Nd). -/
def NdDigits (l : List Char) : Prop :=
  ∀ c ∈ l, (uniDigit? c).isSome

/-- The number denoted by a string of ASCII digits, most significant
first. -/
def digitsVal (l : List Char) : Nat :=
  l.foldl (fun a c => 10 * a + (c.toNat - 48)) 0

/-- The number denoted by a string of Unicode decimal digits, most
significant first — what `int()` computes on the matched group. -/
def uniVal (l : List Char) : Nat :=
  l.foldl (fun a c => 10 * a + (uniDigit? c).getD 0) 0

/-- The dates `strptime("%Y-%m-%d")` actually accepts, stated
declaratively: a four-digit year (each digit any Unicode decimal
digit), a one- or two-digit ASCII month, a one- or two-digit day whose
first character is an ASCII digit and whose second character may be a
non-ASCII Unicode digit only after a leading `1` or `2` (the `[1-2]\d`
regex alternative; code points 49 and 50), separated by literal
hyphens, and denoting a real calendar date of years 1..9999.  Note the
month and day need not be zero-padded. -/
def ValidLenientDate (s : String) : Prop :=
  ∃ ys ms ds : List Char,
    s.data = ys ++ '-' :: (ms ++ '-' :: ds) ∧
    NdDigits ys ∧ ys.length = 4 ∧
    AllDigits ms ∧ (ms.length = 1 ∨ ms.length = 2) ∧
    NdDigits ds ∧ (ds.length = 1 ∨ ds.length = 2) ∧
    (∀ c, ds.head? = some c → 48 ≤ c.toNat ∧ c.toNat ≤ 57) ∧
    (∀ a b, ds = [a, b] → a.toNat ≠ 49 → a.toNat ≠ 50 →
      48 ≤ b.toNat ∧ b.toNat ≤ 57) ∧
    1 ≤ uniVal ys ∧
    1 ≤ digitsVal ms ∧ digitsVal ms ≤ 12 ∧
    1 ≤ uniVal ds ∧
    uniVal ds ≤ daysInMonth (uniVal ys) (digitsVal ms)

/-- The zero-padded `YYYY-MM-DD` format the specification describes:
exactly ten characters with digits and hyphens in fixed positions,
denoting a real calendar date. -/
def ValidPaddedDate (s : String) : Prop :=
  ∃ ys ms ds : List Char,
    s.data = ys ++ '-' :: (ms ++ '-' :: ds) ∧
    AllDigits ys ∧ ys.length = 4 ∧
    AllDigits ms ∧ ms.length = 2 ∧
    AllDigits ds ∧ ds.length = 2 ∧
    1 ≤ digitsVal ys ∧
    1 ≤ digitsVal ms ∧ digitsVal ms ≤ 12 ∧
    1 ≤ digitsVal ds ∧
    digitsVal ds ≤ daysInMonth (digitsVal ys) (digitsVal ms)

/-- Python's string comparison: lexicographic on code points. -/
def pyLt : List Char → List Char → Bool
  | [], [] => false
  | [], _ :: _ => true
  | _ :: _, [] => false
  | a :: as, b :: bs =>
      if a.toNat < b.toNat then true
      else if b.toNat < a.toNat then false
      else pyLt as bs

/-- `a > b` on Python strings. -/
def strGt (a b : String) : Bool := pyLt b.data a.data

/-- `get_user_date_input` from the source, over the stream of console
inputs: each loop iteration reads two strings; invalid format or an
inverted range prints a message and retries; running out of input models
`input()` raising `EOFError` (which the script does not catch). -/
def get_user_date_input : List String → Option (String × String)
  | s :: e :: rest =>
      if !(is_valid_date s && is_valid_date e) then get_user_date_input rest
      else if strGt s e then get_user_date_input rest
      else some (s, e)
  | _ => none

/-- The `daily` object of the Open-Meteo response; each field is `none`
when the key is missing (so access raises `KeyError`).  Temperatures are
modelled as rationals. -/
structure DailyJson where
  time : Option (List String)
  temperature_2m_max : Option (List Rat)
  temperature_2m_min : Option (List Rat)

/-- The decoded response body; `daily := none` models a body without the
`daily` key. -/
structure ApiJson where
  daily : Option DailyJson

/-- What the script observes of its one `requests.get` call: either the
request raised `requests.exceptions.RequestException` (connection
failure), or a response arrived with a status code and a body.
`body = none` models a body that is not valid JSON, so `response.json()`
raises a `ValueError` (caught only by the generic `except Exception`). -/
inductive HttpOutcome where
  | connectionFailure : HttpOutcome
  | response : Nat → Option ApiJson → HttpOutcome

/-- The three error classes of `get_weather_data`: each `except` clause
raises a `RuntimeError` with a distinct message. -/
inductive FetchError where
  | networkError : FetchError
  | dataFormatError : FetchError
  | unexpectedError : FetchError
deriving DecidableEq

/-- `get_weather_data` from the source.  `response.raise_for_status()`
raises `HTTPError` (a `RequestException`) for status codes 400..599; a
missing key raises `KeyError`; both `RequestException` and `KeyError`
have their own `except` clause, everything else falls to the catch-all. -/
def get_weather_data (outcome : HttpOutcome) :
    Except FetchError (List String × List Rat × List Rat) :=
  match outcome with
  | HttpOutcome.connectionFailure => Except.error FetchError.networkError
  | HttpOutcome.response status body =>
    if 400 ≤ status ∧ status < 600 then Except.error FetchError.networkError
    else
      match body with
      | none => Except.error FetchError.unexpectedError
      | some data =>
        match data.daily with
        | none => Except.error FetchError.dataFormatError
        | some daily =>
          match daily.time with
          | none => Except.error FetchError.dataFormatError
          | some t =>
            match daily.temperature_2m_max with
            | none => Except.error FetchError.dataFormatError
            | some mx =>
              match daily.temperature_2m_min with
              | none => Except.error FetchError.dataFormatError
              | some mn => Except.ok (t, mx, mn)

/-- Exceptions the report functions can raise. -/
inductive PyErr where
  | valueError : PyErr
  | indexError : PyErr
deriving DecidableEq

/-- Python's `abs` on a rational. -/
def pyAbs (q : Rat) : Rat := if q < 0 then -q else q

/-- One step of Python's `max`: replace the current value when the next
item is strictly greater (ties keep the earlier element). -/
def pyMax2 (a b : Rat) : Rat := if a < b then b else a

/-- One step of Python's `min`. -/
def pyMin2 (a b : Rat) : Rat := if b < a then b else a

/-- Python's `max(list)`: `ValueError` on the empty list, otherwise a
left fold over the items. -/
def listMax? : List Rat → Option Rat
  | [] => none
  | x :: xs => some (xs.foldl pyMax2 x)

/-- Python's `min(list)`. -/
def listMin? : List Rat → Option Rat
  | [] => none
  | x :: xs => some (xs.foldl pyMin2 x)

/-- Python's `list.index(x)`: the first index holding `x`. -/
def listIndex (x : Rat) : List Rat → Option Nat
  | [] => none
  | y :: ys => if y = x then some 0 else (listIndex x ys).map (· + 1)

/-- `find_extremes` from the source: `max(max_temps)`, `min(min_temps)`
(each a `ValueError` on empty input), then
`dates[max_temps.index(highest)]` and `dates[min_temps.index(lowest)]`
(an `IndexError` when `dates` is too short).  The result quadruple is
(highest, its day, lowest, its day), the content of the two printed
lines. -/
def find_extremes (dates : List String) (max_temps min_temps : List Rat) :
    Except PyErr (Rat × String × Rat × String) :=
  match listMax? max_temps with
  | none => Except.error PyErr.valueError
  | some highest =>
    match listMin? min_temps with
    | none => Except.error PyErr.valueError
    | some lowest =>
      match listIndex highest max_temps with
      | none => Except.error PyErr.valueError
      | some hi =>
        match dates.get? hi with
        | none => Except.error PyErr.indexError
        | some highestDay =>
          match listIndex lowest min_temps with
          | none => Except.error PyErr.valueError
          | some li =>
            match dates.get? li with
            | none => Except.error PyErr.indexError
            | some lowestDay => Except.ok (highest, highestDay, lowest, lowestDay)

/-- One printed anomaly line: the index, `dates[i]`, the signed delta,
and the from/to temperatures. -/
structure Anomaly where
  idx : Nat
  date : String
  delta : Rat
  fromTemp : Rat
  toTemp : Rat
deriving DecidableEq

/-- The loop of `detect_anomalies`, walked along the tail of
`max_temps`: at the call for index `i` the accumulator `prev` is
`max_temps[i-1]` and the list argument is `max_temps.drop i`, so each
step computes `diff = max_temps[i] - max_temps[i-1]` and reports when
`abs(diff) > threshold`; `dates[i]` can raise `IndexError`. -/
def detectLoop (dates : List String) (threshold : Rat) :
    Nat → Rat → List Rat → Except PyErr (List Anomaly)
  | _, _, [] => Except.ok []
  | i, prev, cur :: rest =>
    if threshold < pyAbs (cur - prev) then
      match dates.get? i with
      | none => Except.error PyErr.indexError
      | some d =>
        match detectLoop dates threshold (i + 1) cur rest with
        | Except.error e => Except.error e
        | Except.ok l => Except.ok (⟨i, d, cur - prev, prev, cur⟩ :: l)
    else detectLoop dates threshold (i + 1) cur rest

/-- `detect_anomalies` from the source: the anomaly lines in loop order
(`for i in range(1, len(max_temps))`), paired with whether the final "no
anomalies" message is printed (the `anomalies_found` flag stayed
`False`, i.e. no line was printed). -/
def detect_anomalies (dates : List String) (max_temps : List Rat)
    (threshold : Rat) : Except PyErr (List Anomaly × Bool) :=
  match max_temps with
  | [] => Except.ok ([], true)
  | first :: rest =>
    match detectLoop dates threshold 1 first rest with
    | Except.error e => Except.error e
    | Except.ok l => Except.ok (l, l.isEmpty)

/-- The loop of `print_weather_report`, walked along `dates` (the Python
loop is `for i in range(len(dates))`; the list argument at the call for
index `i` is `dates.drop i`): each line reads `dates[i]`,
`min_temps[i]`, `max_temps[i]`, where the two temperature lookups can
raise `IndexError`. -/
def reportLoop (max_temps min_temps : List Rat) :
    Nat → List String → Except PyErr (List (String × Rat × Rat))
  | _, [] => Except.ok []
  | i, d :: ds =>
    match min_temps.get? i with
    | none => Except.error PyErr.indexError
    | some mn =>
      match max_temps.get? i with
      | none => Except.error PyErr.indexError
      | some mx =>
        match reportLoop max_temps min_temps (i + 1) ds with
        | Except.error e => Except.error e
        | Except.ok rest => Except.ok ((d, mn, mx) :: rest)

/-- `print_weather_report` from the source: the printed lines, one per
date, in series order. -/
def print_weather_report (dates : List String) (max_temps min_temps : List Rat) :
    Except PyErr (List (String × Rat × Rat)) :=
  reportLoop max_temps min_temps 0 dates

/-- The observable stages of one run of `main`. -/
inductive Step where
  | printReport : Step
  | findExtremes : Step
  | detectAnomalies : Step
  | completionMsg : Step
  | errorMsg : Step
  | unexpectedErrorMsg : Step
deriving DecidableEq

/-- `main` from the source, as the list of stages it runs.
`get_user_date_input` runs outside the `try` block, so exhausting the
input stream (`EOFError`) escapes `main` uncaught: result `none`.  Inside
the `try` block a `RuntimeError` from the fetch is caught by the first
handler (`errorMsg`); any exception from the report functions is caught
by `except Exception` (`unexpectedErrorMsg`); a stage is listed when
`main` invokes it, even if it raises part-way. -/
def main_steps (inputs : List String) (outcome : HttpOutcome) :
    Option (List Step) :=
  match get_user_date_input inputs with
  | none => none
  | some _ =>
    match get_weather_data outcome with
    | Except.error _ => some [Step.errorMsg]
    | Except.ok (dates, max_temps, min_temps) =>
      match print_weather_report dates max_temps min_temps with
      | Except.error _ => some [Step.printReport, Step.unexpectedErrorMsg]
      | Except.ok _ =>
        match find_extremes dates max_temps min_temps with
        | Except.error _ =>
            some [Step.printReport, Step.findExtremes, Step.unexpectedErrorMsg]
        | Except.ok _ =>
          match detect_anomalies dates max_temps 3 with
          | Except.error _ =>
              some [Step.printReport, Step.findExtremes, Step.detectAnomalies,
                    Step.unexpectedErrorMsg]
          | Except.ok _ =>
              some [Step.printReport, Step.findExtremes, Step.detectAnomalies,
                    Step.completionMsg]

example : is_valid_date "2023-03-01" = true := by decide
example : is_valid_date "2023-02-30" = false := by decide
example : is_valid_date "2023-3-1" = true := by decide
example : is_valid_date "2023-13-01" = false := by decide
example : is_valid_date "0000-01-01" = false := by decide
example : is_valid_date "2024-02-29" = true := by decide
example : is_valid_date "2023-02-29" = false := by decide
example : is_valid_date "" = false := by decide
example : is_valid_date "2023-01-012" = false := by decide

/- Unicode decimal digits, checked against CPython: `\d` positions
(the four year digits and the second day digit after `1` or `2`)
accept any Nd digit; all other positions are ASCII-only. -/
example : is_valid_date "٢٠٢٣-03-01" = true := by decide
example : is_valid_date "2٠23-01-01" = true := by decide
example : is_valid_date "2023-03-1٣" = true := by decide
example : is_valid_date "2023-01-2५" = true := by decide
example : is_valid_date "2023-1٣-01" = false := by decide
example : is_valid_date "2023-٣-01" = false := by decide
example : is_valid_date "2023-01-٣" = false := by decide
example : is_valid_date "2023-01-0٣" = false := by decide
example : is_valid_date "2023-01-3٠" = false := by decide
example : is_valid_date "१९९९-02-28" = true := by decide
example : is_valid_date "202²-01-01" = false := by decide

example :
    get_user_date_input
      ["2023-01-10", "2023-01-05", "2023-01-05", "2023-01-10"] =
      some ("2023-01-05", "2023-01-10") := by decide

example :
    find_extremes ["d0", "d1", "d2"] [20, 25, 22] [10, 15, 12] =
      Except.ok (25, "d1", 10, "d0") := rfl

example :
    detect_anomalies ["d0", "d1", "d2"] [20, 25, 22] 3 =
      Except.ok ([⟨1, "d1", 5, 20, 25⟩], false) := by
  norm_num [detect_anomalies, detectLoop, pyAbs]

example : detect_anomalies ["d0"] [20] 3 = Except.ok ([], true) := rfl

example : find_extremes [] [] [] = Except.error PyErr.valueError := rfl

example :
    get_weather_data (HttpOutcome.response 200
      (some ⟨some ⟨some ["a", "b"], some [20], some [10]⟩⟩)) =
      Except.ok (["a", "b"], [20], [10]) := rfl

example :
    get_weather_data (HttpOutcome.response 200 (some ⟨none⟩)) =
      Except.error FetchError.dataFormatError := rfl

example :
    get_weather_data (HttpOutcome.response 404
      (some ⟨some ⟨some [], some [], some []⟩⟩)) =
      Except.error FetchError.networkError := rfl

example :
    main_steps ["2023-01-05", "2023-01-10"] HttpOutcome.connectionFailure =
      some [Step.errorMsg] := by decide

theorem digit?_some {c : Char} {d : Nat} (h : digit? c = some d) :
    48 ≤ c.toNat ∧ c.toNat ≤ 57 ∧ d = c.toNat - 48 := by
  unfold digit? at h
  split at h
  next hc =>
    injection h with h
    exact ⟨hc.1, hc.2, h.symm⟩
  next => cases h

theorem digit?_eq {c : Char} (h1 : 48 ≤ c.toNat) (h2 : c.toNat ≤ 57) :
    digit? c = some (c.toNat - 48) := by
  unfold digit?
  rw [if_pos ⟨h1, h2⟩]

theorem digitsVal_one (a : Char) : digitsVal [a] = a.toNat - 48 := by
  simp [digitsVal]

theorem digitsVal_two (a b : Char) :
    digitsVal [a, b] = 10 * (a.toNat - 48) + (b.toNat - 48) := by
  simp [digitsVal]

theorem uniDigit?_le_9 {c : Char} {u : Nat} (h : uniDigit? c = some u) :
    u ≤ 9 := by
  unfold uniDigit? at h
  cases hf : ndBases.find? (fun b => decide (b ≤ c.toNat ∧ c.toNat ≤ b + 9)) with
  | none => rw [hf] at h; cases h
  | some b =>
    rw [hf] at h
    injection h with h
    have hp := List.find?_some hf
    simp only [decide_eq_true_eq] at hp
    omega

theorem uniDigit?_of_ascii {c : Char} (h1 : 48 ≤ c.toNat)
    (h2 : c.toNat ≤ 57) : uniDigit? c = some (c.toNat - 48) := by
  have hnd : ndBases = 48 :: ndBases.tail := rfl
  unfold uniDigit?
  rw [hnd, List.find?_cons_of_pos]
  simp only [decide_eq_true_eq]
  omega

theorem digit?_uniDigit? {c : Char} {d : Nat} (h : digit? c = some d) :
    uniDigit? c = some d := by
  obtain ⟨h1, h2, rfl⟩ := digit?_some h
  exact uniDigit?_of_ascii h1 h2

theorem allDigits_nd {l : List Char} (h : AllDigits l) : NdDigits l := by
  intro c hc
  rw [uniDigit?_of_ascii (h c hc).1 (h c hc).2]
  rfl

theorem uniVal_one {a : Char} {ua : Nat} (ha : uniDigit? a = some ua) :
    uniVal [a] = ua := by
  simp [uniVal, ha]

theorem uniVal_two {a b : Char} {ua ub : Nat} (ha : uniDigit? a = some ua)
    (hb : uniDigit? b = some ub) : uniVal [a, b] = 10 * ua + ub := by
  simp [uniVal, ha, hb]

theorem uniVal_four {a b c d : Char} {ua ub uc ud : Nat}
    (ha : uniDigit? a = some ua) (hb : uniDigit? b = some ub)
    (hc : uniDigit? c = some uc) (hd : uniDigit? d = some ud) :
    uniVal [a, b, c, d] = 1000 * ua + 100 * ub + 10 * uc + ud := by
  simp [uniVal, ha, hb, hc, hd]
  ring

theorem uniVal_le_9999 {ys : List Char} (hd : NdDigits ys)
    (h4 : ys.length = 4) : uniVal ys ≤ 9999 := by
  match ys, h4 with
  | [a, b, c, d], _ =>
    obtain ⟨ua, hua⟩ := Option.isSome_iff_exists.mp (hd a (by simp))
    obtain ⟨ub, hub⟩ := Option.isSome_iff_exists.mp (hd b (by simp))
    obtain ⟨uc, huc⟩ := Option.isSome_iff_exists.mp (hd c (by simp))
    obtain ⟨ud, hud⟩ := Option.isSome_iff_exists.mp (hd d (by simp))
    rw [uniVal_four hua hub huc hud]
    have := uniDigit?_le_9 hua
    have := uniDigit?_le_9 hub
    have := uniDigit?_le_9 huc
    have := uniDigit?_le_9 hud
    omega

theorem uniVal_foldl_ascii : ∀ (l : List Char) (acc : Nat), AllDigits l →
    List.foldl (fun a c => 10 * a + (uniDigit? c).getD 0) acc l =
      List.foldl (fun a c => 10 * a + (c.toNat - 48)) acc l := by
  intro l
  induction l with
  | nil => intro acc h; rfl
  | cons c t ih =>
    intro acc h
    have hc := h c (List.mem_cons_self c t)
    simp only [List.foldl_cons]
    rw [show (uniDigit? c).getD 0 = c.toNat - 48 by
      rw [uniDigit?_of_ascii hc.1 hc.2]; rfl]
    exact ih _ (fun x hx => h x (List.mem_cons_of_mem _ hx))

theorem uniVal_eq_digitsVal {l : List Char} (h : AllDigits l) :
    uniVal l = digitsVal l :=
  uniVal_foldl_ascii l 0 h

theorem parseYear_sound {cs : List Char} {y : Nat} {r : List Char}
    (h : parseYear cs = some (y, r)) :
    ∃ c1 c2 c3 c4, cs = c1 :: c2 :: c3 :: c4 :: r ∧
      NdDigits [c1, c2, c3, c4] ∧ uniVal [c1, c2, c3, c4] = y ∧
      y ≤ 9999 := by
  match cs with
  | [] => simp [parseYear] at h
  | [c1] => simp [parseYear] at h
  | [c1, c2] => simp [parseYear] at h
  | [c1, c2, c3] => simp [parseYear] at h
  | c1 :: c2 :: c3 :: c4 :: rest =>
    rcases h1 : uniDigit? c1 with _ | u1 <;>
      rcases h2 : uniDigit? c2 with _ | u2 <;>
        rcases h3 : uniDigit? c3 with _ | u3 <;>
          rcases h4 : uniDigit? c4 with _ | u4 <;>
            simp only [parseYear, h1, h2, h3, h4] at h <;>
              try cases h
    refine ⟨c1, c2, c3, c4, rfl, ?_, ?_, ?_⟩
    · intro c hc
      simp only [List.mem_cons, List.not_mem_nil, or_false] at hc
      rcases hc with rfl | rfl | rfl | rfl
      · rw [h1]; rfl
      · rw [h2]; rfl
      · rw [h3]; rfl
      · rw [h4]; rfl
    · rw [uniVal_four h1 h2 h3 h4]
    · have := uniDigit?_le_9 h1
      have := uniDigit?_le_9 h2
      have := uniDigit?_le_9 h3
      have := uniDigit?_le_9 h4
      omega

theorem parseYear_complete {c1 c2 c3 c4 : Char} (r : List Char)
    (h : NdDigits [c1, c2, c3, c4]) :
    parseYear (c1 :: c2 :: c3 :: c4 :: r) =
      some (uniVal [c1, c2, c3, c4], r) := by
  obtain ⟨u1, hu1⟩ := Option.isSome_iff_exists.mp (h c1 (by simp))
  obtain ⟨u2, hu2⟩ := Option.isSome_iff_exists.mp (h c2 (by simp))
  obtain ⟨u3, hu3⟩ := Option.isSome_iff_exists.mp (h c3 (by simp))
  obtain ⟨u4, hu4⟩ := Option.isSome_iff_exists.mp (h c4 (by simp))
  simp only [parseYear, hu1, hu2, hu3, hu4, Option.some.injEq, Prod.mk.injEq]
  refine ⟨?_, trivial⟩
  rw [uniVal_four hu1 hu2 hu3 hu4]

theorem parseMonth_sound {cs : List Char} {m : Nat} {r : List Char}
    (h : parseMonth cs = some (m, r)) :
    ∃ ms, cs = ms ++ r ∧ AllDigits ms ∧ (ms.length = 1 ∨ ms.length = 2) ∧
      digitsVal ms = m ∧ 1 ≤ m ∧ m ≤ 12 := by
  match cs with
  | [] => simp [parseMonth] at h
  | [c1] =>
    rcases h1 : digit? c1 with _ | d1 <;> simp only [parseMonth, h1] at h
    · cases h
    · obtain ⟨hb1, hc1, hv1⟩ := digit?_some h1
      split at h
      next hd1 =>
        cases h
        refine ⟨[c1], by simp, ?_, Or.inl rfl, by rw [digitsVal_one]; omega,
          by omega, by omega⟩
        intro c hc
        simp only [List.mem_singleton] at hc
        subst hc
        exact ⟨hb1, hc1⟩
      next => cases h
  | c1 :: c2 :: rest =>
    rcases h1 : digit? c1 with _ | d1 <;>
      rcases h2 : digit? c2 with _ | d2 <;>
        simp only [parseMonth, h1, h2] at h
    · cases h
    · cases h
    · obtain ⟨hb1, hc1, hv1⟩ := digit?_some h1
      split at h
      next hd1 =>
        cases h
        refine ⟨[c1], by simp, ?_, Or.inl rfl, by rw [digitsVal_one]; omega,
          by omega, by omega⟩
        intro c hc
        simp only [List.mem_singleton] at hc
        subst hc
        exact ⟨hb1, hc1⟩
      next => cases h
    · obtain ⟨hb1, hc1, hv1⟩ := digit?_some h1
      obtain ⟨hb2, hc2, hv2⟩ := digit?_some h2
      have hdig2 : AllDigits [c1, c2] := by
        intro c hc
        simp only [List.mem_cons, List.not_mem_nil, or_false] at hc
        rcases hc with rfl | rfl
        · exact ⟨hb1, hc1⟩
        · exact ⟨hb2, hc2⟩
      split_ifs at h with hb hb' hb''
      · cases h
        exact ⟨[c1, c2], by simp, hdig2, Or.inr rfl,
          by rw [digitsVal_two]; omega, by omega, by omega⟩
      · cases h
        exact ⟨[c1, c2], by simp, hdig2, Or.inr rfl,
          by rw [digitsVal_two]; omega, by omega, by omega⟩
      · cases h
        refine ⟨[c1], by simp, ?_, Or.inl rfl, by rw [digitsVal_one]; omega,
          by omega, by omega⟩
        intro c hc
        simp only [List.mem_singleton] at hc
        subst hc
        exact ⟨hb1, hc1⟩

theorem parseMonth_complete {ms : List Char} (t : List Char)
    (hd : AllDigits ms) (hlen : ms.length = 1 ∨ ms.length = 2)
    (h1 : 1 ≤ digitsVal ms) (h12 : digitsVal ms ≤ 12) :
    parseMonth (ms ++ '-' :: t) = some (digitsVal ms, '-' :: t) := by
  match ms, hlen with
  | [a], _ =>
    have ha := hd a (by simp)
    rw [digitsVal_one] at h1 h12 ⊢
    have hdash : digit? '-' = none := rfl
    simp only [List.cons_append, List.nil_append, parseMonth,
      digit?_eq ha.1 ha.2, hdash]
    rw [if_pos h1]
  | [a, b], _ =>
    have ha := hd a (by simp)
    have hb := hd b (by simp)
    rw [digitsVal_two] at h1 h12 ⊢
    simp only [List.cons_append, List.nil_append, parseMonth,
      digit?_eq ha.1 ha.2, digit?_eq hb.1 hb.2]
    split_ifs with hc hc' hc''
    · simp only [Option.some.injEq, Prod.mk.injEq, eq_self_iff_true, and_true]
      try omega
    · simp only [Option.some.injEq, Prod.mk.injEq, eq_self_iff_true, and_true]
      try omega
    · exfalso; omega
    · exfalso; omega

theorem ndDigits_one {c : Char} {u : Nat} (h : uniDigit? c = some u) :
    NdDigits [c] := by
  intro x hx
  simp only [List.mem_singleton] at hx
  subst hx
  rw [h]
  rfl

theorem ndDigits_two {a b : Char} {ua ub : Nat} (ha : uniDigit? a = some ua)
    (hb : uniDigit? b = some ub) : NdDigits [a, b] := by
  intro x hx
  simp only [List.mem_cons, List.not_mem_nil, or_false] at hx
  rcases hx with rfl | rfl
  · rw [ha]; rfl
  · rw [hb]; rfl

theorem dayHead_cons {c : Char} (t : List Char) (h1 : 48 ≤ c.toNat)
    (h2 : c.toNat ≤ 57) :
    ∀ x, (c :: t).head? = some x → 48 ≤ x.toNat ∧ x.toNat ≤ 57 := by
  intro x hx
  simp only [List.head?_cons, Option.some.injEq] at hx
  subst hx
  exact ⟨h1, h2⟩

theorem daySnd_one (c : Char) :
    ∀ a b, ([c] : List Char) = [a, b] → a.toNat ≠ 49 → a.toNat ≠ 50 →
      48 ≤ b.toNat ∧ b.toNat ≤ 57 := by
  intro a b hab
  simp at hab

theorem daySnd_ascii {a0 b0 : Char} (h1 : 48 ≤ b0.toNat) (h2 : b0.toNat ≤ 57) :
    ∀ a b, ([a0, b0] : List Char) = [a, b] → a.toNat ≠ 49 → a.toNat ≠ 50 →
      48 ≤ b.toNat ∧ b.toNat ≤ 57 := by
  intro a b hab hn1 hn2
  simp only [List.cons.injEq, and_true] at hab
  obtain ⟨rfl, rfl⟩ := hab
  exact ⟨h1, h2⟩

theorem daySnd_12 {a0 b0 : Char} (h12 : a0.toNat = 49 ∨ a0.toNat = 50) :
    ∀ a b, ([a0, b0] : List Char) = [a, b] → a.toNat ≠ 49 → a.toNat ≠ 50 →
      48 ≤ b.toNat ∧ b.toNat ≤ 57 := by
  intro a b hab hn1 hn2
  simp only [List.cons.injEq, and_true] at hab
  obtain ⟨rfl, -⟩ := hab
  rcases h12 with h | h
  · exact absurd h hn1
  · exact absurd h hn2

theorem parseDay_sound {cs : List Char} {d : Nat} {r : List Char}
    (h : parseDay cs = some (d, r)) :
    ∃ ds, cs = ds ++ r ∧ NdDigits ds ∧ (ds.length = 1 ∨ ds.length = 2) ∧
      (∀ c, ds.head? = some c → 48 ≤ c.toNat ∧ c.toNat ≤ 57) ∧
      (∀ a b, ds = [a, b] → a.toNat ≠ 49 → a.toNat ≠ 50 →
        48 ≤ b.toNat ∧ b.toNat ≤ 57) ∧
      uniVal ds = d ∧ 1 ≤ d ∧ d ≤ 31 := by
  match cs with
  | [] => simp [parseDay] at h
  | [c1] =>
    rcases h1 : digit? c1 with _ | d1 <;> simp only [parseDay, h1] at h
    · cases h
    · obtain ⟨hb1, hc1, hv1⟩ := digit?_some h1
      split at h
      next hd1 =>
        cases h
        refine ⟨[c1], by simp, ndDigits_one (digit?_uniDigit? h1),
          Or.inl rfl, dayHead_cons [] hb1 hc1, daySnd_one c1,
          by rw [uniVal_one (digit?_uniDigit? h1)], by omega, by omega⟩
      next => cases h
  | c1 :: c2 :: rest =>
    rcases h1 : digit? c1 with _ | d1 <;> simp only [parseDay, h1] at h
    · cases h
    · obtain ⟨hb1, hc1, hv1⟩ := digit?_some h1
      rcases h2 : digit? c2 with _ | a2 <;> simp only [h2] at h
      · rcases hu2 : uniDigit? c2 with _ | u2 <;> simp only [hu2] at h
        · split at h
          next hd1 =>
            cases h
            refine ⟨[c1], by simp, ndDigits_one (digit?_uniDigit? h1),
              Or.inl rfl, dayHead_cons [] hb1 hc1, daySnd_one c1,
              by rw [uniVal_one (digit?_uniDigit? h1)], by omega, by omega⟩
          next => cases h
        · have hu2le := uniDigit?_le_9 hu2
          split_ifs at h with h12 hd1
          · cases h
            refine ⟨[c1, c2], by simp,
              ndDigits_two (digit?_uniDigit? h1) hu2, Or.inr rfl,
              dayHead_cons [c2] hb1 hc1, daySnd_12 (by omega),
              by rw [uniVal_two (digit?_uniDigit? h1) hu2], by omega,
              by omega⟩
          · cases h
            refine ⟨[c1], by simp, ndDigits_one (digit?_uniDigit? h1),
              Or.inl rfl, dayHead_cons [] hb1 hc1, daySnd_one c1,
              by rw [uniVal_one (digit?_uniDigit? h1)], by omega, by omega⟩
      · obtain ⟨hb2, hc2, hv2⟩ := digit?_some h2
        split_ifs at h with hA hB hC hD
        · cases h
          refine ⟨[c1, c2], by simp,
            ndDigits_two (digit?_uniDigit? h1) (digit?_uniDigit? h2),
            Or.inr rfl, dayHead_cons [c2] hb1 hc1, daySnd_ascii hb2 hc2,
            by rw [uniVal_two (digit?_uniDigit? h1) (digit?_uniDigit? h2)]
               try omega,
            by omega, by omega⟩
        · cases h
          refine ⟨[c1, c2], by simp,
            ndDigits_two (digit?_uniDigit? h1) (digit?_uniDigit? h2),
            Or.inr rfl, dayHead_cons [c2] hb1 hc1, daySnd_ascii hb2 hc2,
            by rw [uniVal_two (digit?_uniDigit? h1) (digit?_uniDigit? h2)]
               try omega,
            by omega, by omega⟩
        · cases h
          refine ⟨[c1, c2], by simp,
            ndDigits_two (digit?_uniDigit? h1) (digit?_uniDigit? h2),
            Or.inr rfl, dayHead_cons [c2] hb1 hc1, daySnd_ascii hb2 hc2,
            by rw [uniVal_two (digit?_uniDigit? h1) (digit?_uniDigit? h2)]
               try omega,
            by omega, by omega⟩
        · cases h
          refine ⟨[c1], by simp, ndDigits_one (digit?_uniDigit? h1),
            Or.inl rfl, dayHead_cons [] hb1 hc1, daySnd_one c1,
            by rw [uniVal_one (digit?_uniDigit? h1)], by omega, by omega⟩

theorem parseDay_complete {ds : List Char}
    (hnd : NdDigits ds) (hlen : ds.length = 1 ∨ ds.length = 2)
    (hhead : ∀ c, ds.head? = some c → 48 ≤ c.toNat ∧ c.toNat ≤ 57)
    (hsnd : ∀ a b, ds = [a, b] → a.toNat ≠ 49 → a.toNat ≠ 50 →
      48 ≤ b.toNat ∧ b.toNat ≤ 57)
    (h1 : 1 ≤ uniVal ds) (h31 : uniVal ds ≤ 31) :
    parseDay ds = some (uniVal ds, []) := by
  match ds, hlen with
  | [a], _ =>
    have ha := hhead a (by simp)
    have hua : uniDigit? a = some (a.toNat - 48) :=
      uniDigit?_of_ascii ha.1 ha.2
    rw [uniVal_one hua] at h1 h31 ⊢
    simp only [parseDay, digit?_eq ha.1 ha.2]
    rw [if_pos h1]
  | [a, b], _ =>
    have ha := hhead a (by simp)
    have hda : digit? a = some (a.toNat - 48) := digit?_eq ha.1 ha.2
    have hua : uniDigit? a = some (a.toNat - 48) :=
      uniDigit?_of_ascii ha.1 ha.2
    by_cases hbA : 48 ≤ b.toNat ∧ b.toNat ≤ 57
    · have hdb : digit? b = some (b.toNat - 48) := digit?_eq hbA.1 hbA.2
      have hub : uniDigit? b = some (b.toNat - 48) :=
        uniDigit?_of_ascii hbA.1 hbA.2
      rw [uniVal_two hua hub] at h1 h31 ⊢
      simp only [parseDay, hda, hdb]
      split_ifs with hc hc' hc'' hc3
      · simp only [Option.some.injEq, Prod.mk.injEq, eq_self_iff_true,
          and_true]
        try omega
      · simp only [Option.some.injEq, Prod.mk.injEq, eq_self_iff_true,
          and_true]
        try omega
      · simp only [Option.some.injEq, Prod.mk.injEq, eq_self_iff_true,
          and_true]
        try omega
      · exfalso; omega
      · exfalso; omega
    · obtain ⟨ub, hub⟩ := Option.isSome_iff_exists.mp (hnd b (by simp))
      have hb12 : a.toNat = 49 ∨ a.toNat = 50 := by
        by_cases hn1 : a.toNat = 49
        · exact Or.inl hn1
        · by_cases hn2 : a.toNat = 50
          · exact Or.inr hn2
          · exact absurd (hsnd a b rfl hn1 hn2) hbA
      have hdb : digit? b = none := by
        unfold digit?
        rw [if_neg hbA]
      rw [uniVal_two hua hub] at h1 h31 ⊢
      simp only [parseDay, hda, hdb, hub]
      rw [if_pos (show a.toNat - 48 = 1 ∨ a.toNat - 48 = 2 by omega)]

theorem daysInMonth_le (y m : Nat) : daysInMonth y m ≤ 31 := by
  unfold daysInMonth
  split_ifs <;> omega

theorem strptimeYmd_sound {s : List Char} {y m d : Nat}
    (h : strptimeYmd s = some (y, m, d)) :
    ∃ ys ms ds : List Char,
      s = ys ++ '-' :: (ms ++ '-' :: ds) ∧
      NdDigits ys ∧ ys.length = 4 ∧
      AllDigits ms ∧ (ms.length = 1 ∨ ms.length = 2) ∧
      NdDigits ds ∧ (ds.length = 1 ∨ ds.length = 2) ∧
      (∀ c, ds.head? = some c → 48 ≤ c.toNat ∧ c.toNat ≤ 57) ∧
      (∀ a b, ds = [a, b] → a.toNat ≠ 49 → a.toNat ≠ 50 →
        48 ≤ b.toNat ∧ b.toNat ≤ 57) ∧
      uniVal ys = y ∧ digitsVal ms = m ∧ uniVal ds = d ∧
      y ≤ 9999 ∧ 1 ≤ m ∧ m ≤ 12 ∧ 1 ≤ d ∧ d ≤ 31 := by
  rw [strptimeYmd] at h
  split at h <;> try cases h
  next y' r1 heqY =>
  split at h <;> try cases h
  next r2 =>
  split at h <;> try cases h
  next m' r3 heqM =>
  split at h <;> try cases h
  next r4 =>
  split at h <;> try cases h
  next d' r5 heqD =>
  split at h <;> try cases h
  next heqNil =>
  subst heqNil
  obtain ⟨c1, c2, c3, c4, hs, hysd, hysval, hy9999⟩ := parseYear_sound heqY
  obtain ⟨ms, hr2, hmsd, hmslen, hmsval, hm1, hm12⟩ := parseMonth_sound heqM
  obtain ⟨ds, hr4, hdsd, hdslen, hdhead, hdsnd, hdsval, hd1, hd31⟩ :=
    parseDay_sound heqD
  rw [List.append_nil] at hr4
  refine ⟨[c1, c2, c3, c4], ms, ds, ?_, hysd, rfl, hmsd, hmslen, hdsd,
    hdslen, hdhead, hdsnd, hysval, hmsval, hdsval, hy9999, hm1, hm12,
    hd1, hd31⟩
  rw [hs, hr2, hr4]
  simp

theorem strptimeYmd_complete {ys ms ds : List Char}
    (hysd : NdDigits ys) (hys4 : ys.length = 4)
    (hmsd : AllDigits ms) (hmslen : ms.length = 1 ∨ ms.length = 2)
    (hdsd : NdDigits ds) (hdslen : ds.length = 1 ∨ ds.length = 2)
    (hdhead : ∀ c, ds.head? = some c → 48 ≤ c.toNat ∧ c.toNat ≤ 57)
    (hdsnd : ∀ a b, ds = [a, b] → a.toNat ≠ 49 → a.toNat ≠ 50 →
      48 ≤ b.toNat ∧ b.toNat ≤ 57)
    (hm1 : 1 ≤ digitsVal ms) (hm12 : digitsVal ms ≤ 12)
    (hd1 : 1 ≤ uniVal ds) (hd31 : uniVal ds ≤ 31) :
    strptimeYmd (ys ++ '-' :: (ms ++ '-' :: ds)) =
      some (uniVal ys, digitsVal ms, uniVal ds) := by
  match ys, hys4 with
  | [c1, c2, c3, c4], _ =>
    simp only [List.cons_append, List.nil_append, strptimeYmd,
      parseYear_complete ('-' :: (ms ++ '-' :: ds)) hysd,
      parseMonth_complete ds hmsd hmslen hm1 hm12,
      parseDay_complete hdsd hdslen hdhead hdsnd hd1 hd31,
      eq_self_iff_true, if_true]

theorem le_foldl_pyMax2 (xs : List Rat) : ∀ a : Rat, a ≤ xs.foldl pyMax2 a := by
  induction xs with
  | nil => intro a; exact le_refl a
  | cons b t ih =>
    intro a
    refine le_trans ?_ (ih (pyMax2 a b))
    unfold pyMax2
    split <;> simp_all [le_of_lt]

theorem mem_le_foldl_pyMax2 (xs : List Rat) :
    ∀ (a x : Rat), x ∈ xs → x ≤ xs.foldl pyMax2 a := by
  induction xs with
  | nil => intro a x hx; simp at hx
  | cons b t ih =>
    intro a x hx
    rcases List.mem_cons.mp hx with rfl | hxt
    · refine le_trans ?_ (le_foldl_pyMax2 t (pyMax2 a x))
      unfold pyMax2
      split <;> simp_all [le_of_not_lt]
    · exact ih (pyMax2 a b) x hxt

theorem foldl_pyMax2_mem (xs : List Rat) :
    ∀ a : Rat, xs.foldl pyMax2 a = a ∨ xs.foldl pyMax2 a ∈ xs := by
  induction xs with
  | nil => intro a; exact Or.inl rfl
  | cons b t ih =>
    intro a
    rcases ih (pyMax2 a b) with h | h
    · rw [List.foldl_cons, h]
      unfold pyMax2
      split
      · exact Or.inr (List.mem_cons_self b t)
      · exact Or.inl rfl
    · exact Or.inr (List.mem_cons_of_mem b h)

theorem foldl_pyMin2_le (xs : List Rat) : ∀ a : Rat, xs.foldl pyMin2 a ≤ a := by
  induction xs with
  | nil => intro a; exact le_refl a
  | cons b t ih =>
    intro a
    refine le_trans (ih (pyMin2 a b)) ?_
    unfold pyMin2
    split <;> simp_all [le_of_lt]

theorem foldl_pyMin2_le_mem (xs : List Rat) :
    ∀ (a x : Rat), x ∈ xs → xs.foldl pyMin2 a ≤ x := by
  induction xs with
  | nil => intro a x hx; simp at hx
  | cons b t ih =>
    intro a x hx
    rcases List.mem_cons.mp hx with rfl | hxt
    · refine le_trans (foldl_pyMin2_le t (pyMin2 a x)) ?_
      unfold pyMin2
      split <;> simp_all [le_of_not_lt]
    · exact ih (pyMin2 a b) x hxt

theorem foldl_pyMin2_mem (xs : List Rat) :
    ∀ a : Rat, xs.foldl pyMin2 a = a ∨ xs.foldl pyMin2 a ∈ xs := by
  induction xs with
  | nil => intro a; exact Or.inl rfl
  | cons b t ih =>
    intro a
    rcases ih (pyMin2 a b) with h | h
    · rw [List.foldl_cons, h]
      unfold pyMin2
      split
      · exact Or.inr (List.mem_cons_self b t)
      · exact Or.inl rfl
    · exact Or.inr (List.mem_cons_of_mem b h)

theorem listMax?_spec {l : List Rat} {m : Rat} (h : listMax? l = some m) :
    m ∈ l ∧ ∀ x ∈ l, x ≤ m := by
  cases l with
  | nil => simp [listMax?] at h
  | cons x xs =>
    rw [listMax?, Option.some.injEq] at h
    subst h
    constructor
    · rcases foldl_pyMax2_mem xs x with h | h
      · rw [h]; exact List.mem_cons_self x xs
      · exact List.mem_cons_of_mem x h
    · intro y hy
      rcases List.mem_cons.mp hy with rfl | hyt
      · exact le_foldl_pyMax2 xs y
      · exact mem_le_foldl_pyMax2 xs x y hyt

theorem listMin?_spec {l : List Rat} {m : Rat} (h : listMin? l = some m) :
    m ∈ l ∧ ∀ x ∈ l, m ≤ x := by
  cases l with
  | nil => simp [listMin?] at h
  | cons x xs =>
    rw [listMin?, Option.some.injEq] at h
    subst h
    constructor
    · rcases foldl_pyMin2_mem xs x with h | h
      · rw [h]; exact List.mem_cons_self x xs
      · exact List.mem_cons_of_mem x h
    · intro y hy
      rcases List.mem_cons.mp hy with rfl | hyt
      · exact foldl_pyMin2_le xs y
      · exact foldl_pyMin2_le_mem xs x y hyt

theorem listIndex_spec {x : Rat} {l : List Rat} {i : Nat}
    (h : listIndex x l = some i) :
    l.get? i = some x ∧ ∀ j, j < i → l.get? j ≠ some x := by
  induction l generalizing i with
  | nil => simp [listIndex] at h
  | cons y t ih =>
    by_cases hyx : y = x
    · rw [listIndex, if_pos hyx] at h
      injection h with h
      subst h
      subst hyx
      exact ⟨rfl, fun j hj => absurd hj (Nat.not_lt_zero j)⟩
    · rw [listIndex, if_neg hyx] at h
      rcases Option.map_eq_some'.mp h with ⟨i0, hi0, hsucc⟩
      subst hsucc
      obtain ⟨hget, hmin⟩ := ih hi0
      refine ⟨hget, ?_⟩
      intro j hj
      cases j with
      | zero =>
        simp only [List.get?_cons_zero]
        exact fun hc => hyx (Option.some.inj hc)
      | succ j0 =>
        simp only [List.get?_cons_succ]
        exact hmin j0 (Nat.lt_of_succ_lt_succ hj)

theorem listIndex_of_mem {x : Rat} {l : List Rat} (h : x ∈ l) :
    ∃ i, listIndex x l = some i := by
  induction l with
  | nil => simp at h
  | cons y t ih =>
    by_cases hyx : y = x
    · exact ⟨0, by rw [listIndex, if_pos hyx]⟩
    · rcases List.mem_cons.mp h with rfl | hxt
      · exact absurd rfl hyx
      · obtain ⟨i, hi⟩ := ih hxt
        exact ⟨i + 1, by rw [listIndex, if_neg hyx, hi]; rfl⟩

/-- Claim C5: on a non-empty series with the parallel-length invariant,
`find_extremes` reports the maximum of `max_temps` with the date at the
first index attaining it, and the minimum of `min_temps` with the date
at the first index attaining it. -/
theorem find_extremes_spec (dates : List String)
    (max_temps min_temps : List Rat) (hne : max_temps ≠ [])
    (hlen1 : dates.length = max_temps.length)
    (hlen2 : dates.length = min_temps.length) :
    ∃ (highest lowest : Rat) (hi li : Nat) (hd ld : String),
      find_extremes dates max_temps min_temps =
        Except.ok (highest, hd, lowest, ld) ∧
      (∀ x ∈ max_temps, x ≤ highest) ∧
      max_temps.get? hi = some highest ∧
      (∀ j, j < hi → max_temps.get? j ≠ some highest) ∧
      dates.get? hi = some hd ∧
      (∀ x ∈ min_temps, lowest ≤ x) ∧
      min_temps.get? li = some lowest ∧
      (∀ j, j < li → min_temps.get? j ≠ some lowest) ∧
      dates.get? li = some ld := by
  obtain ⟨highest, hmax⟩ : ∃ m, listMax? max_temps = some m := by
    cases max_temps with
    | nil => exact absurd rfl hne
    | cons x xs => exact ⟨xs.foldl pyMax2 x, rfl⟩
  obtain ⟨lowest, hmin⟩ : ∃ m, listMin? min_temps = some m := by
    cases hmt : min_temps with
    | nil =>
      rw [hmt] at hlen2
      cases max_temps with
      | nil => exact absurd rfl hne
      | cons x xs => rw [hlen1] at hlen2; simp at hlen2
    | cons x xs => exact ⟨xs.foldl pyMin2 x, rfl⟩
  obtain ⟨hmem, hub⟩ := listMax?_spec hmax
  obtain ⟨lmem, llb⟩ := listMin?_spec hmin
  obtain ⟨hi, hidx⟩ := listIndex_of_mem hmem
  obtain ⟨li, lidx⟩ := listIndex_of_mem lmem
  obtain ⟨hget, hfirst⟩ := listIndex_spec hidx
  obtain ⟨lget, lfirst⟩ := listIndex_spec lidx
  have hiLt : hi < dates.length := by
    rw [hlen1]
    exact List.get?_eq_some.mp hget |>.1
  have liLt : li < dates.length := by
    rw [hlen2]
    exact List.get?_eq_some.mp lget |>.1
  obtain ⟨hd, hdget⟩ : ∃ d, dates.get? hi = some d :=
    ⟨dates.get ⟨hi, hiLt⟩, List.get?_eq_get hiLt⟩
  obtain ⟨ld, ldget⟩ : ∃ d, dates.get? li = some d :=
    ⟨dates.get ⟨li, liLt⟩, List.get?_eq_get liLt⟩
  refine ⟨highest, lowest, hi, li, hd, ld, ?_, hub, hget, hfirst, hdget,
    llb, lget, lfirst, ldget⟩
  simp only [find_extremes, hmax, hmin, hidx, hdget, lidx, ldget]

/-- Witness for `find_extremes_spec` at the spec example
`dates=[d0,d1,d2], max=[20,25,22], min=[10,15,12]`. -/
theorem find_extremes_spec_witness :
    (([20, 25, 22] : List Rat) ≠ []) ∧
    ∃ (highest lowest : Rat) (hi li : Nat) (hd ld : String),
      find_extremes ["d0", "d1", "d2"] [20, 25, 22] [10, 15, 12] =
        Except.ok (highest, hd, lowest, ld) ∧
      (∀ x ∈ ([20, 25, 22] : List Rat), x ≤ highest) ∧
      ([20, 25, 22] : List Rat).get? hi = some highest ∧
      (∀ j, j < hi → ([20, 25, 22] : List Rat).get? j ≠ some highest) ∧
      ["d0", "d1", "d2"].get? hi = some hd ∧
      (∀ x ∈ ([10, 15, 12] : List Rat), lowest ≤ x) ∧
      ([10, 15, 12] : List Rat).get? li = some lowest ∧
      (∀ j, j < li → ([10, 15, 12] : List Rat).get? j ≠ some lowest) ∧
      ["d0", "d1", "d2"].get? li = some ld :=
  ⟨by simp,
   find_extremes_spec ["d0", "d1", "d2"] [20, 25, 22] [10, 15, 12]
     (by simp) (by simp) (by simp)⟩

theorem detectLoop_spec (dates : List String) (t : Rat) (rest : List Rat) :
    ∀ (i : Nat) (prev : Rat), i + rest.length ≤ dates.length →
      ∃ l, detectLoop dates t i prev rest = Except.ok l ∧
        ∀ a : Anomaly, a ∈ l ↔
          ∃ k, k < rest.length ∧ a.idx = i + k ∧
            (prev :: rest).get? k = some a.fromTemp ∧
            rest.get? k = some a.toTemp ∧
            a.delta = a.toTemp - a.fromTemp ∧
            t < pyAbs a.delta ∧
            dates.get? (i + k) = some a.date := by
  induction rest with
  | nil =>
    intro i prev hlen
    exact ⟨[], rfl, by simp⟩
  | cons cur rest ih =>
    intro i prev hlen
    rw [List.length_cons] at hlen
    have hi : i < dates.length := by omega
    obtain ⟨d, hd⟩ : ∃ d, dates.get? i = some d :=
      ⟨dates.get ⟨i, hi⟩, List.get?_eq_get hi⟩
    obtain ⟨l, hl, hiff⟩ := ih (i + 1) cur (by omega)
    by_cases hth : t < pyAbs (cur - prev)
    · refine ⟨⟨i, d, cur - prev, prev, cur⟩ :: l, ?_, ?_⟩
      · simp only [detectLoop, hd, hl]
        rw [if_pos hth]
      · intro a
        constructor
        · intro ha
          rcases List.mem_cons.mp ha with rfl | hal
          · exact ⟨0, by simp, by simp, by simp, by simp, rfl, hth,
              by simpa using hd⟩
          · obtain ⟨k, hk, hidx, hfrom, hto, hdelta, hthr, hdate⟩ :=
              (hiff a).mp hal
            refine ⟨k + 1, by simpa using hk, by omega, ?_, ?_, hdelta, hthr, ?_⟩
            · simpa using hfrom
            · simpa using hto
            · have : i + (k + 1) = i + 1 + k := by omega
              rw [this]
              exact hdate
        · rintro ⟨k, hk, hidx, hfrom, hto, hdelta, hthr, hdate⟩
          cases k with
          | zero =>
            obtain ⟨aidx, adate, adelta, afrom, ato⟩ := a
            simp only [List.get?_cons_zero, Option.some.injEq] at hfrom hto
            simp only [Nat.add_zero] at hidx hdate
            rw [hd, Option.some.injEq] at hdate
            simp only at hidx hdelta hthr
            subst hfrom; subst hto; subst hdate; subst hidx; subst hdelta
            exact List.mem_cons_self _ _
          | succ k0 =>
            refine List.mem_cons_of_mem _ ((hiff a).mpr ⟨k0, ?_, ?_, ?_, ?_,
              hdelta, hthr, ?_⟩)
            · simpa using hk
            · omega
            · simpa using hfrom
            · simpa using hto
            · have : i + (k0 + 1) = i + 1 + k0 := by omega
              rw [this] at hdate
              exact hdate
    · refine ⟨l, ?_, ?_⟩
      · simp only [detectLoop, hl]
        rw [if_neg hth]
      · intro a
        rw [hiff a]
        constructor
        · rintro ⟨k, hk, hidx, hfrom, hto, hdelta, hthr, hdate⟩
          refine ⟨k + 1, by simpa using hk, by omega, by simpa using hfrom,
            by simpa using hto, hdelta, hthr, ?_⟩
          have : i + (k + 1) = i + 1 + k := by omega
          rw [this]
          exact hdate
        · rintro ⟨k, hk, hidx, hfrom, hto, hdelta, hthr, hdate⟩
          cases k with
          | zero =>
            simp only [List.get?_cons_zero, Option.some.injEq] at hfrom hto
            rw [hdelta, ← hfrom, ← hto] at hthr
            exact absurd hthr hth
          | succ k0 =>
            refine ⟨k0, by simpa using hk, by omega, by simpa using hfrom,
              by simpa using hto, hdelta, hthr, ?_⟩
            have : i + (k0 + 1) = i + 1 + k0 := by omega
            rw [this] at hdate
            exact hdate

/-- Claim C6: with the parallel-length invariant, `detect_anomalies`
succeeds, and it reports an anomaly at index `i` (for `1 ≤ i < length`)
exactly when `abs(max_temps[i] - max_temps[i-1])` strictly exceeds the
threshold; every reported anomaly at `i` carries the signed delta
`max_temps[i] - max_temps[i-1]` and the from/to values. -/
theorem detect_anomalies_spec (dates : List String) (max_temps : List Rat)
    (threshold : Rat) (res : List Anomaly × Bool)
    (hlen : dates.length = max_temps.length)
    (hrun : detect_anomalies dates max_temps threshold = Except.ok res) :
    ∀ i : Nat, 1 ≤ i → i < max_temps.length → ∀ p c : Rat,
      max_temps.get? (i - 1) = some p →
      max_temps.get? i = some c →
      ((∃ a ∈ res.1, a.idx = i) ↔ threshold < pyAbs (c - p)) ∧
      ∀ a ∈ res.1, a.idx = i →
        a.fromTemp = p ∧ a.toTemp = c ∧ a.delta = c - p := by
  intro i h1 hilen p c hp hc
  cases max_temps with
  | nil => simp at hilen
  | cons first rest =>
    rw [List.length_cons] at hilen
    obtain ⟨l, hl, hiff⟩ := detectLoop_spec dates threshold rest 1 first
      (by rw [hlen, List.length_cons]; omega)
    rw [detect_anomalies, hl] at hrun
    injection hrun with hres
    subst hres
    have hrest : rest.get? (i - 1) = some c := by
      have : i = (i - 1) + 1 := by omega
      rw [this, List.get?_cons_succ] at hc
      exact hc
    constructor
    · constructor
      · rintro ⟨a, hal, haidx⟩
        obtain ⟨k, hk, hidx, hfrom, hto, hdelta, hthr, hdate⟩ := (hiff a).mp hal
        have hki : k = i - 1 := by omega
        subst hki
        rw [hp] at hfrom
        rw [hrest] at hto
        injection hfrom with hfrom
        injection hto with hto
        rw [hdelta, ← hfrom, ← hto] at hthr
        exact hthr
      · intro hthr
        have hiD : i < dates.length := by
          rw [hlen, List.length_cons]; omega
        obtain ⟨dd, hdd⟩ : ∃ dd, dates.get? i = some dd :=
          ⟨dates.get ⟨i, hiD⟩, List.get?_eq_get hiD⟩
        refine ⟨⟨i, dd, c - p, p, c⟩, (hiff _).mpr ⟨i - 1, by omega,
          show i = 1 + (i - 1) by omega, ?_, ?_, rfl, hthr, ?_⟩, rfl⟩
        · simpa using hp
        · simpa using hrest
        · have : 1 + (i - 1) = i := by omega
          rw [this]
          exact hdd
    · rintro a hal rfl
      obtain ⟨k, hk, hidx, hfrom, hto, hdelta, hthr, hdate⟩ := (hiff a).mp hal
      have hki : k = a.idx - 1 := by omega
      subst hki
      rw [hp] at hfrom
      rw [hrest] at hto
      injection hfrom with hfrom
      injection hto with hto
      exact ⟨hfrom.symm, hto.symm, by rw [hdelta, hfrom, hto]⟩

/-- Witness for `detect_anomalies_spec` at the spec example
`max=[20,25,22]`, threshold 3, index 2 (delta -3, not an anomaly). -/
theorem detect_anomalies_spec_witness :
    ((∃ a ∈ ([⟨1, "d1", 5, 20, 25⟩] : List Anomaly), a.idx = 2) ↔
      (3 : Rat) < pyAbs (22 - 25)) ∧
    ∀ a ∈ ([⟨1, "d1", 5, 20, 25⟩] : List Anomaly), a.idx = 2 →
      a.fromTemp = 25 ∧ a.toTemp = 22 ∧ a.delta = 22 - 25 :=
  detect_anomalies_spec ["d0", "d1", "d2"] [20, 25, 22] 3
    ([⟨1, "d1", 5, 20, 25⟩], false) (by simp)
    (by norm_num [detect_anomalies, detectLoop, pyAbs]) 2 (by norm_num)
    (by simp) 25 22 rfl rfl

/-- Counterexample to claim C1 as stated: `"2023-3-1"` is not in
zero-padded `YYYY-MM-DD` form, yet `is_valid_date` accepts it, because
CPython's `strptime` allows one-digit months and days. -/
theorem is_valid_date_accepts_unpadded :
    is_valid_date "2023-3-1" = true ∧ ¬ ValidPaddedDate "2023-3-1" := by
  refine ⟨by decide, ?_⟩
  rintro ⟨ys, ms, ds, hsplit, -, hys4, -, hms2, -, hds2, -⟩
  have h8 : ("2023-3-1".data).length = 8 := rfl
  rw [hsplit] at h8
  simp only [List.length_append, List.length_cons, hys4, hms2, hds2] at h8
  omega

/-- Claim C1 (amended): `is_valid_date` accepts exactly the strings of
the lenient shape `strptime` matches — a four-digit year whose digits
may be any Unicode decimal digits, a one- or two-digit ASCII month, a
one- or two-digit day that is ASCII except that after a leading `1` or
`2` the second digit may be any Unicode decimal digit — that denote
real calendar dates; every zero-padded real date is accepted,
`"2023-02-30"` is rejected and `"2023-03-01"` accepted, but
`"2023-3-1"` (no padding), `"٢٠٢٣-03-01"` (Arabic-Indic year) and
`"2023-03-1٣"` (Unicode second day digit) are accepted as well, while
`"2023-1٣-01"` is rejected (the month classes are ASCII-only). -/
theorem is_valid_date_iff_lenient :
    (∀ s : String, is_valid_date s = true ↔ ValidLenientDate s) ∧
    (∀ s : String, ValidPaddedDate s → is_valid_date s = true) ∧
    is_valid_date "2023-02-30" = false ∧
    is_valid_date "2023-03-01" = true ∧
    is_valid_date "2023-3-1" = true ∧
    is_valid_date "٢٠٢٣-03-01" = true ∧
    is_valid_date "2023-03-1٣" = true ∧
    is_valid_date "2023-1٣-01" = false := by
  have main : ∀ s : String, is_valid_date s = true ↔ ValidLenientDate s := by
    intro s
    constructor
    · intro h
      rw [is_valid_date] at h
      rcases hp : strptimeYmd s.data with _ | ⟨y, m, d⟩
      · rw [hp] at h
        cases h
      · simp only [hp] at h
        simp only [datetimeOk, Bool.and_eq_true, decide_eq_true_eq] at h
        obtain ⟨⟨⟨⟨⟨hy1, hy2⟩, hm1⟩, hm2⟩, hd1⟩, hd2⟩ := h
        obtain ⟨ys, ms, ds, hsplit, hysd, hys4, hmsd, hmslen, hdsd, hdslen,
          hdhead, hdsnd, hyv, hmv, hdv, hy9999, hm1b, hm12b, hd1b, hd31b⟩ :=
          strptimeYmd_sound hp
        refine ⟨ys, ms, ds, hsplit, hysd, hys4, hmsd, hmslen, hdsd, hdslen,
          hdhead, hdsnd, by omega, by omega, by omega, by omega, ?_⟩
        rw [hyv, hmv, hdv]
        exact hd2
    · rintro ⟨ys, ms, ds, hsplit, hysd, hys4, hmsd, hmslen, hdsd, hdslen,
        hdhead, hdsnd, hy1, hm1, hm12, hd1, hdval⟩
      rw [is_valid_date, hsplit]
      simp only [strptimeYmd_complete hysd hys4 hmsd hmslen hdsd hdslen
        hdhead hdsnd hm1 hm12 hd1 (le_trans hdval (daysInMonth_le _ _))]
      simp only [datetimeOk, Bool.and_eq_true, decide_eq_true_eq]
      exact ⟨⟨⟨⟨⟨hy1, uniVal_le_9999 hysd hys4⟩, hm1⟩, hm12⟩, hd1⟩, hdval⟩
  refine ⟨main, ?_, by decide, by decide, by decide, by decide, by decide,
    by decide⟩
  intro s hp
  apply (main s).mpr
  obtain ⟨ys, ms, ds, hsplit, hysd, hys4, hmsd, hms2, hdsd, hds2, hy1, hm1,
    hm12, hd1, hdval⟩ := hp
  refine ⟨ys, ms, ds, hsplit, allDigits_nd hysd, hys4, hmsd, Or.inr hms2,
    allDigits_nd hdsd, Or.inr hds2, ?_, ?_,
    by rw [uniVal_eq_digitsVal hysd]; exact hy1, hm1, hm12,
    by rw [uniVal_eq_digitsVal hdsd]; exact hd1,
    by rw [uniVal_eq_digitsVal hdsd, uniVal_eq_digitsVal hysd]; exact hdval⟩
  · intro c hc
    cases ds with
    | nil => cases hc
    | cons x t =>
      simp only [List.head?_cons, Option.some.injEq] at hc
      subst hc
      exact hdsd x (List.mem_cons_self x t)
  · intro a b hab hn1 hn2
    exact hdsd b (by rw [hab]; simp)

/-- Witness for `is_valid_date_iff_lenient` at the concrete date of the
spec example. -/
theorem is_valid_date_iff_lenient_witness :
    is_valid_date "2023-03-01" = true :=
  is_valid_date_iff_lenient.2.2.2.1

/-- Claim C10: `is_valid_date` is total on strings: the `try/except
ValueError` absorbs the only exception `strptime` raises, so the call
always returns a boolean (`Except.ok`) and never lets an exception
escape. -/
theorem is_valid_dateE_total (s : String) :
    is_valid_dateE s = Except.ok (is_valid_date s) := by
  unfold is_valid_dateE strptimeE is_valid_date
  rcases h : strptimeYmd s.data with _ | ⟨y, m, d⟩
  · rfl
  · by_cases hd : datetimeOk y m d = true <;> simp [hd]

/-- Claim C8: on the empty series `find_extremes` raises (here
`max(max_temps)` on the empty list is a `ValueError`) rather than
silently printing nothing. -/
theorem find_extremes_empty :
    find_extremes [] [] [] = Except.error PyErr.valueError := rfl

/-- Claim C9: on a series whose `max_temps` has length 0 or 1 the loop
body of `detect_anomalies` never runs, no anomaly is reported and the
"no anomalies" message is printed. -/
theorem detect_anomalies_short (dates : List String) (max_temps : List Rat)
    (threshold : Rat) (h : max_temps.length ≤ 1) :
    detect_anomalies dates max_temps threshold = Except.ok ([], true) := by
  cases max_temps with
  | nil => rfl
  | cons a t =>
    cases t with
    | nil => rfl
    | cons b t2 => simp [List.length_cons] at h

/-- Witness for `detect_anomalies_short` at the singleton series of the
spec example. -/
theorem detect_anomalies_short_witness :
    ([(20 : Rat)] : List Rat).length ≤ 1 ∧
      detect_anomalies ["d0"] [20] 3 = Except.ok ([], true) :=
  ⟨by decide, detect_anomalies_short ["d0"] [20] 3 (by decide)⟩

/-- Claim C2: whenever the input loop returns, the returned pair passed
both validity checks and the ordering check `start > end` failed, so
`start ≤ end` in Python string order. -/
theorem get_user_date_input_sound (inputs : List String) :
    ∀ s e : String, get_user_date_input inputs = some (s, e) →
      is_valid_date s = true ∧ is_valid_date e = true ∧ strGt s e = false := by
  induction inputs using get_user_date_input.induct with
  | case1 s0 e0 rest hvalid ih =>
    intro s e h
    rw [get_user_date_input, if_pos hvalid] at h
    exact ih s e h
  | case2 s0 e0 rest hvalid hgt ih =>
    intro s e h
    rw [get_user_date_input, if_neg hvalid, if_pos hgt] at h
    exact ih s e h
  | case3 s0 e0 rest hvalid hgt =>
    intro s e h
    rw [get_user_date_input, if_neg hvalid, if_neg hgt] at h
    simp only [Option.some.injEq, Prod.mk.injEq] at h
    obtain ⟨rfl, rfl⟩ := h
    simp only [Bool.not_eq_true, Bool.not_eq_false, Bool.not_eq_true',
      Bool.not_eq_false', Bool.and_eq_true] at hvalid hgt
    exact ⟨hvalid.1, hvalid.2, hgt⟩
  | case4 inputs hshape =>
    intro s e h
    rcases inputs with _ | ⟨a, _ | ⟨b, rest⟩⟩
    · simp [get_user_date_input] at h
    · simp [get_user_date_input] at h
    · exact (hshape a b rest rfl).elim

/-- Witness for `get_user_date_input_sound`: the spec's four-input
session, whose first pair is rejected for ordering and whose second pair
is returned. -/
theorem get_user_date_input_sound_witness :
    get_user_date_input
        ["2023-01-10", "2023-01-05", "2023-01-05", "2023-01-10"] =
      some ("2023-01-05", "2023-01-10") ∧
    (is_valid_date "2023-01-05" = true ∧ is_valid_date "2023-01-10" = true ∧
      strGt "2023-01-05" "2023-01-10" = false) :=
  ⟨by decide,
   get_user_date_input_sound
     ["2023-01-10", "2023-01-05", "2023-01-05", "2023-01-10"]
     "2023-01-05" "2023-01-10" (by decide)⟩

/-- Claim C3: the three `except` clauses of `get_weather_data` classify
every failure: a connection failure or an HTTP error status (400..599,
what `raise_for_status` rejects) is a network error; a response whose
body decodes but lacks `daily` or one of its three arrays is a
data-format error (`KeyError`); any other failure — here a body that is
not JSON, so `response.json()` raises — falls to the catch-all. -/
theorem get_weather_data_error_classes :
    (get_weather_data HttpOutcome.connectionFailure =
        Except.error FetchError.networkError) ∧
    (∀ (st : Nat) (body : Option ApiJson), 400 ≤ st → st < 600 →
        get_weather_data (HttpOutcome.response st body) =
          Except.error FetchError.networkError) ∧
    (∀ st : Nat, ¬(400 ≤ st ∧ st < 600) →
        get_weather_data (HttpOutcome.response st none) =
          Except.error FetchError.unexpectedError) ∧
    (∀ (st : Nat) (data : ApiJson), ¬(400 ≤ st ∧ st < 600) →
        (data.daily = none ∨
          ∃ dj, data.daily = some dj ∧
            (dj.time = none ∨ dj.temperature_2m_max = none ∨
              dj.temperature_2m_min = none)) →
        get_weather_data (HttpOutcome.response st (some data)) =
          Except.error FetchError.dataFormatError) := by
  refine ⟨rfl, ?_, ?_, ?_⟩
  · intro st body h4 h6
    simp [get_weather_data, h4, h6]
  · intro st hst
    simp [get_weather_data, hst]
  · intro st data hst hmiss
    obtain ⟨dopt⟩ := data
    rcases hmiss with hnone | ⟨dj, hsome, hfield⟩
    · cases hnone
      simp [get_weather_data, hst]
    · cases hsome
      obtain ⟨topt, mxopt, mnopt⟩ := dj
      rcases hfield with ht | hmx | hmn
      · cases ht
        simp [get_weather_data, hst]
      · cases hmx
        cases topt <;> simp [get_weather_data, hst]
      · cases hmn
        cases topt <;> cases mxopt <;> simp [get_weather_data, hst]

/-- Witness for `get_weather_data_error_classes`: one concrete outcome
per error class. -/
theorem get_weather_data_error_classes_witness :
    (get_weather_data (HttpOutcome.response 404 none) =
        Except.error FetchError.networkError) ∧
    (get_weather_data (HttpOutcome.response 200 none) =
        Except.error FetchError.unexpectedError) ∧
    (get_weather_data (HttpOutcome.response 200 (some ⟨none⟩)) =
        Except.error FetchError.dataFormatError) :=
  ⟨get_weather_data_error_classes.2.1 404 none (by decide) (by decide),
   get_weather_data_error_classes.2.2.1 200 (by decide),
   get_weather_data_error_classes.2.2.2 200 ⟨none⟩ (by decide) (Or.inl rfl)⟩

/-- Claim C7 (amended): a successful `get_weather_data` returns the three
response arrays verbatim — the code performs no length check, so the
equal-length invariant holds exactly when the API response already
satisfied it. -/
theorem get_weather_data_verbatim (outcome : HttpOutcome)
    (t : List String) (mx mn : List Rat)
    (h : get_weather_data outcome = Except.ok (t, mx, mn)) :
    ∃ st : Nat, ¬(400 ≤ st ∧ st < 600) ∧
      outcome = HttpOutcome.response st
        (some ⟨some ⟨some t, some mx, some mn⟩⟩) := by
  cases outcome with
  | connectionFailure => simp [get_weather_data] at h
  | response st body =>
    refine ⟨st, ?_, ?_⟩
    · intro hst
      simp [get_weather_data, hst] at h
    · by_cases hst : 400 ≤ st ∧ st < 600
      · simp [get_weather_data, hst] at h
      · cases body with
        | none => simp [get_weather_data, hst] at h
        | some data =>
          obtain ⟨dopt⟩ := data
          cases dopt with
          | none => simp [get_weather_data, hst] at h
          | some dj =>
            obtain ⟨topt, mxopt, mnopt⟩ := dj
            cases topt with
            | none => simp [get_weather_data, hst] at h
            | some t0 =>
              cases mxopt with
              | none => simp [get_weather_data, hst] at h
              | some mx0 =>
                cases mnopt with
                | none => simp [get_weather_data, hst] at h
                | some mn0 =>
                  simp [get_weather_data, hst] at h
                  obtain ⟨h1, h2, h3⟩ := h
                  subst h1; subst h2; subst h3; rfl

/-- Witness for `get_weather_data_verbatim` at a concrete successful
response. -/
theorem get_weather_data_verbatim_witness :
    ∃ st : Nat, ¬(400 ≤ st ∧ st < 600) ∧
      HttpOutcome.response 200
          (some ⟨some ⟨some ["a", "b"], some [20], some [10]⟩⟩) =
        HttpOutcome.response st
          (some ⟨some ⟨some ["a", "b"], some [20], some [10]⟩⟩) :=
  get_weather_data_verbatim _ ["a", "b"] [20] [10] rfl

/-- Counterexample to claim C7 as stated: an API response whose `daily`
arrays have unequal lengths still makes `get_weather_data` succeed, and
the returned series violates `len(dates) == len(maxTemps)`. -/
theorem get_weather_data_unequal_lengths :
    get_weather_data (HttpOutcome.response 200
        (some ⟨some ⟨some ["a", "b"], some [20], some [10]⟩⟩)) =
      Except.ok (["a", "b"], [20], [10]) ∧
    (["a", "b"] : List String).length ≠ ([(20 : Rat)] : List Rat).length :=
  ⟨rfl, by decide⟩

/-- Claim C4: when the fetch fails (with any of the three errors), `main`
prints the error message and stops: the steps of the run are exactly the
error report — no report printing, no extremes, no anomaly scan — and
`main_steps` is `some _`, i.e. no exception escapes `main`. -/
theorem main_steps_fetch_error (inputs : List String) (outcome : HttpOutcome)
    (r : String × String) (e : FetchError)
    (hin : get_user_date_input inputs = some r)
    (hf : get_weather_data outcome = Except.error e) :
    ∃ steps, main_steps inputs outcome = some steps ∧
      Step.errorMsg ∈ steps ∧
      Step.printReport ∉ steps ∧
      Step.findExtremes ∉ steps ∧
      Step.detectAnomalies ∉ steps := by
  refine ⟨[Step.errorMsg], ?_, by decide, by decide, by decide, by decide⟩
  simp [main_steps, hin, hf]

/-- Witness for `main_steps_fetch_error`: a valid input pair followed by
a connection failure. -/
theorem main_steps_fetch_error_witness :
    ∃ steps,
      main_steps ["2023-01-05", "2023-01-10"] HttpOutcome.connectionFailure =
        some steps ∧
      Step.errorMsg ∈ steps ∧
      Step.printReport ∉ steps ∧
      Step.findExtremes ∉ steps ∧
      Step.detectAnomalies ∉ steps :=
  main_steps_fetch_error ["2023-01-05", "2023-01-10"]
    HttpOutcome.connectionFailure ("2023-01-05", "2023-01-10")
    FetchError.networkError (by decide) rfl

end Airflow
